import Mathlib

/-!
Verification of the license-classification engine of `check-nc-licenses`.

The engine consists of two classifiers and a registry loop:
  - the Keyword Classifier (`default-filter.ts`, here `defaultFilter`),
  - the Identifier Classifier (`spdx-filter.ts`, here `spdxFilter`),
  - the per-manifest filter loop of `scan` (`index.ts`, here `runFilters`).

The classifiers are JavaScript functions over untyped `package.json`
objects.  The embedding models the JavaScript values that can appear in
the relevant fields (`JsValue`), JavaScript truthiness, the `||` default
operator, property access, and the fact that calling `.toLowerCase()` /
`.toUpperCase()` on a truthy non-string raises a `TypeError`; fallible
evaluation is modelled with `Except JsError`.
-/

namespace NcCheck

/-- A JavaScript runtime value as it can appear in a parsed `package.json`
field: a string, a number, a boolean, `null`, an array, or an object. -/
inductive JsValue where
  | str (s : String)
  | num (n : Int)
  | bool (b : Bool)
  | null
  | arr (elems : List JsValue)
  | obj (fields : List (String × JsValue))

/-- JavaScript truthiness of a value: `""`, `0`, `false` and `null` are
falsy; every other value of these shapes is truthy. -/
def JsValue.truthy : JsValue → Bool
  | .str s => !s.isEmpty
  | .num n => decide (n ≠ 0)
  | .bool b => b
  | .null => false
  | .arr _ => true
  | .obj _ => true

/-- The JavaScript test `typeof v === 'object'`: true for objects, arrays
and `null`. -/
def JsValue.typeofObject : JsValue → Bool
  | .null => true
  | .arr _ => true
  | .obj _ => true
  | _ => false

/-- JavaScript property access `v[k]`: a present object field, otherwise
`undefined` (modelled as `none`). -/
def jsGet : JsValue → String → Option JsValue
  | .obj fields, k => (fields.find? (fun p => p.1 == k)).map (fun p => p.2)
  | _, _ => none

/-- The only JavaScript error the classifiers can raise: a `TypeError`
from calling a string method on a non-string. -/
inductive JsError where
  | typeError

/-- The fields of a parsed `package.json` manifest that the classifiers
read.  `none` models an absent field (JavaScript `undefined`). -/
structure PkgJson where
  name : Option JsValue
  version : Option JsValue
  license : Option JsValue
  licenses : Option JsValue

/-- The `LicenseMatchResult` record of `src/types/filter.d.ts`.  The
`name`, `version` and `license` fields are copied verbatim from the
manifest by the classifiers, so in JavaScript they may be `undefined` or
any value; `reason` is always set to a string literal. -/
structure LicenseMatchResult where
  name : Option JsValue
  version : Option JsValue
  license : Option JsValue
  reason : String

/-- The JavaScript expression `x || ''`: the value itself when truthy
(and present), otherwise the empty string. -/
def jsOrEmptyString : Option JsValue → JsValue
  | none => .str ""
  | some v => if v.truthy then v else .str ""

/-- Containment of `sub` in `hay`, on lists of characters; this is the
semantics of JavaScript `hay.includes(sub)`. -/
def charListIncludes : List Char → List Char → Bool
  | [], sub => sub.isEmpty
  | c :: t, sub => List.isPrefixOf sub (c :: t) || charListIncludes t sub

/-- JavaScript `s.includes(sub)`. -/
def jsIncludes (s sub : String) : Bool :=
  charListIncludes s.toList sub.toList

/-- ASCII lower-casing, the semantics of `String.prototype.toLowerCase`
on the ASCII license strings this repository handles. -/
def asciiLower (s : String) : String :=
  ⟨s.data.map Char.toLower⟩

/-- ASCII upper-casing, the semantics of `String.prototype.toUpperCase`
on the ASCII license strings this repository handles. -/
def asciiUpper (s : String) : String :=
  ⟨s.data.map Char.toUpper⟩

/-- JavaScript method call `v.toLowerCase()`: succeeds on strings,
raises `TypeError` on every other value. -/
def jsToLowerCase : JsValue → Except JsError String
  | .str s => .ok (asciiLower s)
  | _ => .error .typeError

/-- JavaScript method call `v.toUpperCase()`: succeeds on strings,
raises `TypeError` on every other value. -/
def jsToUpperCase : JsValue → Except JsError String
  | .str s => .ok (asciiUpper s)
  | _ => .error .typeError

/-- The `NC_KEYWORDS` vocabulary of `default-filter.ts`. -/
def NC_KEYWORDS : List String :=
  ["non-commercial", "noncommercial", "by-nc", "cc-by-nc",
   "attribution-noncommercial", "nc"]

/-- The `NON_COMMERCIAL_SPDX` table of `spdx-filter.ts`. -/
def NON_COMMERCIAL_SPDX : List String :=
  ["CC-BY-NC-1.0", "CC-BY-NC-2.0", "CC-BY-NC-2.5", "CC-BY-NC-3.0", "CC-BY-NC-4.0",
   "CC-BY-NC-SA-1.0", "CC-BY-NC-SA-2.0", "CC-BY-NC-SA-2.5", "CC-BY-NC-SA-3.0", "CC-BY-NC-SA-4.0"]

/-- The `for (const licenseObj of pkgJson.licenses)` loop of
`default-filter.ts`: skip entries that are not truthy objects with a
truthy `type`, lowercase the `type` (raising on non-strings), and return
a verdict on the first entry whose lowercased type contains a vocabulary
keyword, using the entry's original `type` as the verdict's license. -/
def checkLicensesArray (pkgJson : PkgJson) : List JsValue → Except JsError (Option LicenseMatchResult)
  | [] => Except.ok none
  | licenseObj :: rest =>
    if licenseObj.truthy && licenseObj.typeofObject then
      match jsGet licenseObj "type" with
      | some t =>
        if t.truthy then
          match jsToLowerCase t with
          | .error e => .error e
          | .ok licenseType =>
            if NC_KEYWORDS.any (fun k => jsIncludes licenseType k) then
              Except.ok (some ⟨pkgJson.name, pkgJson.version, some t,
                "licenses array contains NC keyword"⟩)
            else
              checkLicensesArray pkgJson rest
        else checkLicensesArray pkgJson rest
      | none => checkLicensesArray pkgJson rest
    else checkLicensesArray pkgJson rest

/-- The `if (Array.isArray(pkgJson.licenses))` block of
`default-filter.ts`: run the array loop when `licenses` is an array,
otherwise return `null`. -/
def licensesArrayFallback (pkgJson : PkgJson) : Except JsError (Option LicenseMatchResult) :=
  match pkgJson.licenses with
  | some (JsValue.arr entries) => checkLicensesArray pkgJson entries
  | _ => Except.ok none

/-- The Keyword Classifier: the default export `filter` of
`default-filter.ts`.  Lowercase `pkgJson.license || ''`; if it contains
a vocabulary keyword, suppress the match when the text contains `inc.`
and the only matching keyword is the bare `nc` (returning `null`
immediately), otherwise return a verdict copying the manifest's raw
fields; if no keyword matched, fall back to the `licenses` array. -/
def defaultFilter (pkgPath : String) (pkgJson : PkgJson) : Except JsError (Option LicenseMatchResult) :=
  match jsToLowerCase (jsOrEmptyString pkgJson.license) with
  | .error e => .error e
  | .ok license =>
    if NC_KEYWORDS.any (fun k => jsIncludes license k) then
      if jsIncludes license "inc." then
        let matchedKeywords := NC_KEYWORDS.filter (fun k => jsIncludes license k)
        if matchedKeywords.length == 1 && matchedKeywords.head? == some "nc" then
          Except.ok none
        else
          Except.ok (some ⟨pkgJson.name, pkgJson.version, pkgJson.license,
            "license field contains NC keyword"⟩)
      else
        Except.ok (some ⟨pkgJson.name, pkgJson.version, pkgJson.license,
          "license field contains NC keyword"⟩)
    else
      licensesArrayFallback pkgJson

/-- The Identifier Classifier: the default export `filter` of
`spdx-filter.ts`.  Uppercase `pkgJson.license || ''` and test exact
membership in the SPDX table; on a hit, return a verdict whose license
is the raw (pre-normalization) `pkgJson.license`. -/
def spdxFilter (pkgPath : String) (pkgJson : PkgJson) : Except JsError (Option LicenseMatchResult) :=
  match jsToUpperCase (jsOrEmptyString pkgJson.license) with
  | .error e => .error e
  | .ok lic =>
    if NON_COMMERCIAL_SPDX.contains lic then
      Except.ok (some ⟨pkgJson.name, pkgJson.version, pkgJson.license,
        "SPDX identifier is known to be non-commercial"⟩)
    else Except.ok none

/-- The signature of a classifier (`LicenseFilter` in
`src/types/filter.d.ts`), with JavaScript fallibility made explicit. -/
abbrev JsFilter := String → PkgJson → Except JsError (Option LicenseMatchResult)

/-- The registry's provenance annotation: the statement
`res.reason += \x7b' (filter: ' + fname + ')'\x7d` of `scan`, modelled
functionally. -/
def annotateReason (fname : String) (res : LicenseMatchResult) : LicenseMatchResult :=
  { res with reason := res.reason ++ " (filter: " ++ fname ++ ")" }

/-- The per-manifest filter loop of `scan` in `src/index.ts`: invoke
each named filter in list order on the declaration, and push each
non-null verdict, with its reason annotated by the producing filter's
name, onto the result list. -/
def runFilters (filters : List (String × JsFilter)) (pkgPath : String) (pkgJson : PkgJson) :
    Except JsError (List LicenseMatchResult) :=
  match filters with
  | [] => Except.ok []
  | (fname, fn) :: rest =>
    match fn pkgPath pkgJson with
    | .error e => .error e
    | .ok res =>
      match runFilters rest pkgPath pkgJson with
      | .error e => .error e
      | .ok results =>
        match res with
        | some r => Except.ok (annotateReason fname r :: results)
        | none => Except.ok results

/-! Helper lemmas shared by the claim theorems. -/

theorem jsOrEmptyString_str (s : String) :
    jsOrEmptyString (some (JsValue.str s)) = JsValue.str s := by
  simp only [jsOrEmptyString, JsValue.truthy]
  by_cases h : s.isEmpty
  · rw [String.isEmpty_iff] at h
    subst h
    simp
  · simp [h]

theorem jsToLowerCase_or_str (s : String) :
    jsToLowerCase (jsOrEmptyString (some (JsValue.str s))) = Except.ok (asciiLower s) := by
  rw [jsOrEmptyString_str]
  rfl

theorem jsToUpperCase_or_str (s : String) :
    jsToUpperCase (jsOrEmptyString (some (JsValue.str s))) = Except.ok (asciiUpper s) := by
  rw [jsOrEmptyString_str]
  rfl

theorem contains_iff_mem_SPDX (s : String) :
    NON_COMMERCIAL_SPDX.contains s = true ↔ s ∈ NON_COMMERCIAL_SPDX := by
  simp [List.contains]

/-- A character list containing `inc.` also contains `nc`. -/
theorem charListIncludes_inc_nc (hay : List Char) :
    charListIncludes hay ['i', 'n', 'c', '.'] = true →
    charListIncludes hay ['n', 'c'] = true := by
  induction hay with
  | nil => simp [charListIncludes]
  | cons c t ih =>
    intro h
    simp only [charListIncludes, Bool.or_eq_true] at h ⊢
    rcases h with h1 | h2
    · right
      cases t with
      | nil => simp [List.isPrefixOf] at h1
      | cons d u =>
        cases u with
        | nil => simp [List.isPrefixOf] at h1
        | cons e v =>
          simp only [List.isPrefixOf, Bool.and_eq_true, beq_iff_eq] at h1
          obtain ⟨-, hd, he, -⟩ := h1
          subst hd
          subst he
          simp [charListIncludes, List.isPrefixOf]
    · right
      exact ih h2

theorem jsIncludes_inc_nc (s : String) (h : jsIncludes s "inc." = true) :
    jsIncludes s "nc" = true :=
  charListIncludes_inc_nc s.toList h

theorem nc_mem_NC_KEYWORDS : "nc" ∈ NC_KEYWORDS := by decide

/-! Claim theorems. -/

/-- C1: for every declaration with a string license field, the
Identifier Classifier returns a verdict if and only if that field,
upper-cased (i.e. compared case-insensitively against the upper-case
table), is one of the ten enumerated Creative Commons NC identifiers;
for any other string it returns nothing, and the verdict's license field
is the original pre-normalization string. -/
theorem spdxFilter_matches_iff_table (path : String) (pkg : PkgJson) (s : String)
    (h : pkg.license = some (JsValue.str s)) :
    (spdxFilter path pkg
        = Except.ok (some ⟨pkg.name, pkg.version, some (JsValue.str s),
            "SPDX identifier is known to be non-commercial"⟩)
      ↔ asciiUpper s ∈ NON_COMMERCIAL_SPDX)
    ∧ (asciiUpper s ∉ NON_COMMERCIAL_SPDX → spdxFilter path pkg = Except.ok none) := by
  have hred : spdxFilter path pkg
      = if NON_COMMERCIAL_SPDX.contains (asciiUpper s) then
          Except.ok (some ⟨pkg.name, pkg.version, some (JsValue.str s),
            "SPDX identifier is known to be non-commercial"⟩)
        else Except.ok none := by
    simp only [spdxFilter, h, jsToUpperCase_or_str]
  cases hc : NON_COMMERCIAL_SPDX.contains (asciiUpper s) with
  | true =>
    have hmem : asciiUpper s ∈ NON_COMMERCIAL_SPDX := (contains_iff_mem_SPDX _).mp hc
    rw [hred, hc]
    exact ⟨⟨fun _ => hmem, fun _ => rfl⟩, fun hn => absurd hmem hn⟩
  | false =>
    have hnmem : asciiUpper s ∉ NON_COMMERCIAL_SPDX := by
      intro hm
      have ht := (contains_iff_mem_SPDX (asciiUpper s)).mpr hm
      rw [hc] at ht
      exact Bool.noConfusion ht
    rw [hred, hc]
    refine ⟨⟨fun he => by simp at he, fun hm => absurd hm hnmem⟩, fun _ => rfl⟩

/-- C1 witness: `CC-BY-NC-4.0` is matched exactly with the original
string kept in the verdict, and the compound `MIT OR CC-BY-NC-4.0` is
not an exact table member, so the Identifier Classifier returns
nothing on it. -/
theorem spdxFilter_matches_iff_table_witness :
    (spdxFilter "p" ⟨some (JsValue.str "a"), some (JsValue.str "1.0.0"),
        some (JsValue.str "cc-by-nc-4.0"), none⟩
      = Except.ok (some ⟨some (JsValue.str "a"), some (JsValue.str "1.0.0"),
          some (JsValue.str "cc-by-nc-4.0"),
          "SPDX identifier is known to be non-commercial"⟩))
    ∧ (spdxFilter "p" ⟨some (JsValue.str "a"), some (JsValue.str "1.0.0"),
        some (JsValue.str "MIT OR CC-BY-NC-4.0"), none⟩ = Except.ok none) :=
  ⟨((spdxFilter_matches_iff_table "p" _ "cc-by-nc-4.0" rfl).1).mpr (by decide),
   (spdxFilter_matches_iff_table "p" _ "MIT OR CC-BY-NC-4.0" rfl).2 (by decide)⟩

/-- When the lowercased string field contains `inc.` and the only
matching vocabulary keyword is the bare `nc`, the Keyword Classifier
returns `null` immediately (in particular it does not consult the
`licenses` array). -/
theorem defaultFilter_suppressed (path : String) (pkg : PkgJson) (s : String)
    (h : pkg.license = some (JsValue.str s))
    (hinc : jsIncludes (asciiLower s) "inc." = true)
    (hm : NC_KEYWORDS.filter (fun k => jsIncludes (asciiLower s) k) = ["nc"]) :
    defaultFilter path pkg = Except.ok none := by
  have hany : NC_KEYWORDS.any (fun k => jsIncludes (asciiLower s) k) = true :=
    List.any_eq_true.mpr ⟨"nc", nc_mem_NC_KEYWORDS, jsIncludes_inc_nc _ hinc⟩
  simp only [defaultFilter, h, jsToLowerCase_or_str, hany, hinc, if_true]
  rw [hm]
  rfl

/-- When the lowercased string field contains `inc.` but some vocabulary
keyword other than the bare `nc` also matches, the `Inc.` guard does not
fire and the Keyword Classifier returns a verdict from the string
field. -/
theorem defaultFilter_guard_not_fired (path : String) (pkg : PkgJson) (s : String)
    (h : pkg.license = some (JsValue.str s))
    (hinc : jsIncludes (asciiLower s) "inc." = true)
    (k : String) (hk : k ∈ NC_KEYWORDS) (hkne : k ≠ "nc")
    (hkmatch : jsIncludes (asciiLower s) k = true) :
    defaultFilter path pkg
      = Except.ok (some ⟨pkg.name, pkg.version, some (JsValue.str s),
          "license field contains NC keyword"⟩) := by
  have hany : NC_KEYWORDS.any (fun k => jsIncludes (asciiLower s) k) = true :=
    List.any_eq_true.mpr ⟨k, hk, hkmatch⟩
  have hguard : ((NC_KEYWORDS.filter (fun k => jsIncludes (asciiLower s) k)).length == 1
      && ((NC_KEYWORDS.filter (fun k => jsIncludes (asciiLower s) k)).head? == some "nc")) = false := by
    by_contra hb
    rw [Bool.not_eq_false, Bool.and_eq_true] at hb
    obtain ⟨hlen, hhead⟩ := hb
    rw [beq_iff_eq] at hlen hhead
    obtain ⟨a, ha⟩ := List.length_eq_one.mp hlen
    have hknc : jsIncludes (asciiLower s) "nc" = true := jsIncludes_inc_nc _ hinc
    have hmemk : k ∈ NC_KEYWORDS.filter (fun k => jsIncludes (asciiLower s) k) :=
      List.mem_filter.mpr ⟨hk, hkmatch⟩
    rw [ha] at hmemk hhead
    simp only [List.head?_cons, Option.some.injEq] at hhead
    subst hhead
    simp only [List.mem_singleton] at hmemk
    exact hkne hmemk
  simp only [defaultFilter, h, jsToLowerCase_or_str, hany, hinc, if_true]
  rw [hguard]
  rfl

/-- C2: for every declaration whose lowercased string license field
contains the substring `inc.` and whose only matching vocabulary term is
the bare token `nc`, the Keyword Classifier suppresses the match and
produces no verdict; if any other vocabulary term also matched
independently, the match still holds and a verdict is returned. -/
theorem defaultFilter_inc_guard (path : String) (pkg : PkgJson) (s : String)
    (h : pkg.license = some (JsValue.str s))
    (hinc : jsIncludes (asciiLower s) "inc." = true) :
    (NC_KEYWORDS.filter (fun k => jsIncludes (asciiLower s) k) = ["nc"] →
        defaultFilter path pkg = Except.ok none)
    ∧ (∀ k, k ∈ NC_KEYWORDS → k ≠ "nc" → jsIncludes (asciiLower s) k = true →
        defaultFilter path pkg
          = Except.ok (some ⟨pkg.name, pkg.version, some (JsValue.str s),
              "license field contains NC keyword"⟩)) :=
  ⟨fun hm => defaultFilter_suppressed path pkg s h hinc hm,
   fun k hk hkne hkmatch => defaultFilter_guard_not_fired path pkg s h hinc k hk hkne hkmatch⟩

/-- C2 witness: `GNU General Public License v3.0 (Inc.)` is suppressed
(only the bare `nc` matched, via `Inc.`), while `NonCommercial, Inc.`
still yields a verdict because `noncommercial` matched independently. -/
theorem defaultFilter_inc_guard_witness :
    (defaultFilter "p" ⟨some (JsValue.str "a"), some (JsValue.str "1.0.0"),
        some (JsValue.str "GNU General Public License v3.0 (Inc.)"), none⟩
      = Except.ok none)
    ∧ (defaultFilter "p" ⟨some (JsValue.str "a"), some (JsValue.str "1.0.0"),
        some (JsValue.str "NonCommercial, Inc."), none⟩
      = Except.ok (some ⟨some (JsValue.str "a"), some (JsValue.str "1.0.0"),
          some (JsValue.str "NonCommercial, Inc."),
          "license field contains NC keyword"⟩)) :=
  ⟨(defaultFilter_inc_guard "p" _ "GNU General Public License v3.0 (Inc.)" rfl
      (by decide)).1 (by decide),
   (defaultFilter_inc_guard "p" _ "NonCommercial, Inc." rfl (by decide)).2
      "noncommercial" (by decide) (by decide) (by decide)⟩

/-- C10: for every declaration whose string license field contains the
two-character sequence `nc` anywhere after lower-casing and does not
contain the substring `inc.`, the Keyword Classifier returns a verdict
with reason "license field contains NC keyword": vocabulary matching is
raw substring containment, not token matching. -/
theorem defaultFilter_bare_nc_substring (path : String) (pkg : PkgJson) (s : String)
    (h : pkg.license = some (JsValue.str s))
    (hnc : jsIncludes (asciiLower s) "nc" = true)
    (hinc : jsIncludes (asciiLower s) "inc." = false) :
    defaultFilter path pkg
      = Except.ok (some ⟨pkg.name, pkg.version, some (JsValue.str s),
          "license field contains NC keyword"⟩) := by
  have hany : NC_KEYWORDS.any (fun k => jsIncludes (asciiLower s) k) = true :=
    List.any_eq_true.mpr ⟨"nc", nc_mem_NC_KEYWORDS, hnc⟩
  simp only [defaultFilter, h, jsToLowerCase_or_str, hany, hinc, if_true,
    Bool.false_eq_true, if_false]

/-- C10 witness: the license string `Sync Framework License` is flagged
because `sync` contains the raw substring `nc`. -/
theorem defaultFilter_bare_nc_substring_witness :
    defaultFilter "p" ⟨some (JsValue.str "a"), some (JsValue.str "1.0.0"),
        some (JsValue.str "Sync Framework License"), none⟩
      = Except.ok (some ⟨some (JsValue.str "a"), some (JsValue.str "1.0.0"),
          some (JsValue.str "Sync Framework License"),
          "license field contains NC keyword"⟩) :=
  defaultFilter_bare_nc_substring "p" _ "Sync Framework License" rfl (by decide) (by decide)

/-- A `package.json` field value that JavaScript treats as falsy (or an
absent field). -/
def jsFalsyOpt : Option JsValue → Prop
  | none => True
  | some v => v.truthy = false

theorem jsOrEmptyString_falsy (o : Option JsValue) (h : jsFalsyOpt o) :
    jsOrEmptyString o = JsValue.str "" := by
  cases o with
  | none => rfl
  | some v =>
    simp only [jsFalsyOpt] at h
    simp [jsOrEmptyString, h]

/-- C3 counterexample: a truthy non-string license field (a number, or
an object such as `\x7btype: "MIT"\x7d`), and a licenses-array entry with a
truthy non-string `type`, each make the classifier raise a `TypeError`
instead of returning nothing. -/
theorem classifier_nonstring_license_raises :
    defaultFilter "p" ⟨some (JsValue.str "a"), some (JsValue.str "1.0.0"),
        some (JsValue.num 5), none⟩ = Except.error JsError.typeError
    ∧ spdxFilter "p" ⟨some (JsValue.str "a"), some (JsValue.str "1.0.0"),
        some (JsValue.obj [("type", JsValue.str "MIT")]), none⟩
      = Except.error JsError.typeError
    ∧ defaultFilter "p" ⟨some (JsValue.str "a"), some (JsValue.str "1.0.0"),
        none, some (JsValue.arr [JsValue.obj [("type", JsValue.num 3)]])⟩
      = Except.error JsError.typeError :=
  ⟨rfl, rfl, rfl⟩

/-- C3 amended: for every declaration whose license field is absent or
falsy (`undefined`, `null`, `false`, `0`, `""`), each classifier treats
it as the empty string and raises nothing: the Identifier Classifier
returns nothing, and the Keyword Classifier proceeds to the licenses
array fallback (returning nothing when that field is absent).  A truthy
non-string license, however, raises a `TypeError` (see the
counterexample). -/
theorem classifiers_tolerate_falsy_license (path : String) (pkg : PkgJson)
    (h : jsFalsyOpt pkg.license) :
    spdxFilter path pkg = Except.ok none
    ∧ defaultFilter path pkg = licensesArrayFallback pkg
    ∧ (pkg.licenses = none → defaultFilter path pkg = Except.ok none) := by
  have h1 : jsOrEmptyString pkg.license = JsValue.str "" := jsOrEmptyString_falsy _ h
  have hdef : defaultFilter path pkg = licensesArrayFallback pkg := by
    have hany : NC_KEYWORDS.any (fun k => jsIncludes (asciiLower "") k) = false := by decide
    simp only [defaultFilter, h1, jsToLowerCase, hany, Bool.false_eq_true, if_false]
  refine ⟨?_, hdef, ?_⟩
  · have hc : NON_COMMERCIAL_SPDX.contains (asciiUpper "") = false := by decide
    simp only [spdxFilter, h1, jsToUpperCase, hc, Bool.false_eq_true, if_false]
  · intro ha
    rw [hdef]
    simp only [licensesArrayFallback, ha]

/-- C3 amended witness: a `null` license with no licenses array makes
both classifiers return nothing without raising. -/
theorem classifiers_tolerate_falsy_license_witness :
    spdxFilter "p" ⟨some (JsValue.str "a"), some (JsValue.str "1.0.0"),
        some JsValue.null, none⟩ = Except.ok none
    ∧ defaultFilter "p" ⟨some (JsValue.str "a"), some (JsValue.str "1.0.0"),
        some JsValue.null, none⟩
      = licensesArrayFallback ⟨some (JsValue.str "a"), some (JsValue.str "1.0.0"),
          some JsValue.null, none⟩
    ∧ defaultFilter "p" ⟨some (JsValue.str "a"), some (JsValue.str "1.0.0"),
        some JsValue.null, none⟩ = Except.ok none :=
  have h := classifiers_tolerate_falsy_license "p"
    ⟨some (JsValue.str "a"), some (JsValue.str "1.0.0"), some JsValue.null, none⟩ rfl
  ⟨h.1, h.2.1, h.2.2 rfl⟩

/-- C4 counterexample: a declaration whose string license field is
`Foo, Inc.` (a suppressed bare-`nc` hit) together with a legacy licenses
array containing `CC-BY-NC-4.0` yields no verdict at all — the Keyword
Classifier does not fall back to the array after the `Inc.` guard fires,
even though the array loop alone would have produced a verdict. -/
theorem defaultFilter_no_fallback_after_guard :
    defaultFilter "p" ⟨some (JsValue.str "a"), some (JsValue.str "1.0.0"),
        some (JsValue.str "Foo, Inc."),
        some (JsValue.arr [JsValue.obj [("type", JsValue.str "CC-BY-NC-4.0")]])⟩
      = Except.ok none
    ∧ checkLicensesArray ⟨some (JsValue.str "a"), some (JsValue.str "1.0.0"),
        some (JsValue.str "Foo, Inc."),
        some (JsValue.arr [JsValue.obj [("type", JsValue.str "CC-BY-NC-4.0")]])⟩
        [JsValue.obj [("type", JsValue.str "CC-BY-NC-4.0")]]
      = Except.ok (some ⟨some (JsValue.str "a"), some (JsValue.str "1.0.0"),
          some (JsValue.str "CC-BY-NC-4.0"), "licenses array contains NC keyword"⟩) :=
  ⟨rfl, rfl⟩

/-- C4 amended: the Keyword Classifier falls back to the legacy licenses
array only when the string license field yields no vocabulary hit at all
(in particular when it is absent); after an `Inc.`-guard suppression it
returns nothing without consulting the array.  The fallback iterates
entries in order, applies no `Inc.` guard, skips entries that are not
truthy objects with a truthy `type`, and returns a verdict on the first
matching entry whose license value is that entry's original-case `type`
and whose reason is "licenses array contains NC keyword". -/
theorem defaultFilter_array_fallback (path : String) (pkg : PkgJson) :
    (∀ low, jsToLowerCase (jsOrEmptyString pkg.license) = Except.ok low →
        NC_KEYWORDS.any (fun k => jsIncludes low k) = false →
        defaultFilter path pkg = licensesArrayFallback pkg)
    ∧ (∀ s, pkg.license = some (JsValue.str s) →
        jsIncludes (asciiLower s) "inc." = true →
        NC_KEYWORDS.filter (fun k => jsIncludes (asciiLower s) k) = ["nc"] →
        defaultFilter path pkg = Except.ok none)
    ∧ (∀ e rest ts, e.truthy = true → e.typeofObject = true →
        jsGet e "type" = some (JsValue.str ts) →
        (JsValue.str ts).truthy = true →
        NC_KEYWORDS.any (fun k => jsIncludes (asciiLower ts) k) = true →
        checkLicensesArray pkg (e :: rest)
          = Except.ok (some ⟨pkg.name, pkg.version, some (JsValue.str ts),
              "licenses array contains NC keyword"⟩))
    ∧ (∀ e rest, (e.truthy && e.typeofObject) = false ∨ jsGet e "type" = none ∨
        (∃ t, jsGet e "type" = some t ∧ t.truthy = false) →
        checkLicensesArray pkg (e :: rest) = checkLicensesArray pkg rest) := by
  refine ⟨?_, ?_, ?_, ?_⟩
  · intro low hlow hany
    simp only [defaultFilter, hlow, hany, Bool.false_eq_true, if_false]
  · intro s hs hinc hm
    exact defaultFilter_suppressed path pkg s hs hinc hm
  · intro e rest ts htr hobj hget hts hany
    simp only [checkLicensesArray, htr, hobj, Bool.and_self, if_true, hget, hts,
      jsToLowerCase, hany]
  · intro e rest hskip
    rcases hskip with hg | hg | ⟨t, hget, htf⟩
    · simp only [checkLicensesArray, hg, Bool.false_eq_true, if_false]
    · cases hc : (e.truthy && e.typeofObject) with
      | false => simp only [checkLicensesArray, hc, Bool.false_eq_true, if_false]
      | true => simp only [checkLicensesArray, hc, if_true, hg]
    · cases hc : (e.truthy && e.typeofObject) with
      | false => simp only [checkLicensesArray, hc, Bool.false_eq_true, if_false]
      | true => simp only [checkLicensesArray, hc, if_true, hget, htf,
          Bool.false_eq_true, if_false]

/-- C4 amended witness: a no-hit string field falls through to the
array; a suppressed `Foo, Inc.` field returns nothing despite a matching
array; an array entry of type `Bar, Inc.` is matched (no `Inc.` guard on
the fallback path); a `null` entry is skipped. -/
theorem defaultFilter_array_fallback_witness :
    (defaultFilter "p" ⟨some (JsValue.str "a"), some (JsValue.str "1.0.0"),
        some (JsValue.str "MIT"), none⟩
      = licensesArrayFallback ⟨some (JsValue.str "a"), some (JsValue.str "1.0.0"),
          some (JsValue.str "MIT"), none⟩)
    ∧ (defaultFilter "p" ⟨some (JsValue.str "a"), some (JsValue.str "1.0.0"),
        some (JsValue.str "Foo, Inc."),
        some (JsValue.arr [JsValue.obj [("type", JsValue.str "CC-BY-NC-4.0")]])⟩
      = Except.ok none)
    ∧ (checkLicensesArray ⟨some (JsValue.str "a"), some (JsValue.str "1.0.0"), none,
          some (JsValue.arr [JsValue.obj [("type", JsValue.str "Bar, Inc.")]])⟩
        [JsValue.obj [("type", JsValue.str "Bar, Inc.")], JsValue.null]
      = Except.ok (some ⟨some (JsValue.str "a"), some (JsValue.str "1.0.0"),
          some (JsValue.str "Bar, Inc."), "licenses array contains NC keyword"⟩))
    ∧ (checkLicensesArray ⟨some (JsValue.str "a"), some (JsValue.str "1.0.0"), none,
          some (JsValue.arr [JsValue.null])⟩ [JsValue.null, JsValue.num 7]
      = checkLicensesArray ⟨some (JsValue.str "a"), some (JsValue.str "1.0.0"), none,
          some (JsValue.arr [JsValue.null])⟩ [JsValue.num 7]) :=
  ⟨(defaultFilter_array_fallback "p" _).1 "mit" rfl (by decide),
   (defaultFilter_array_fallback "p" _).2.1 "Foo, Inc." rfl (by decide) (by decide),
   (defaultFilter_array_fallback "p" _).2.2.1 _ [JsValue.null] "Bar, Inc."
      rfl rfl rfl (by decide) (by decide),
   (defaultFilter_array_fallback "p" _).2.2.2 JsValue.null [JsValue.num 7]
      (Or.inl rfl)⟩

/-- C5: for every ordered list of named classifiers and every
declaration on which no classifier raises, the registry loop invokes
each classifier in list order, collects exactly the non-nothing
verdicts, appends the provenance suffix " (filter: name)" to each
collected verdict's reason, and returns the resulting list — possibly
empty, never nothing; no verdict is dropped and none is added. -/
theorem runFilters_collects_annotated (filters : List (String × JsFilter)) (path : String)
    (pkg : PkgJson) (h : ∀ p ∈ filters, ∃ o, p.2 path pkg = Except.ok o) :
    runFilters filters path pkg = Except.ok (filters.filterMap (fun p =>
      match p.2 path pkg with
      | Except.ok (some r) => some (annotateReason p.1 r)
      | _ => none)) := by
  induction filters with
  | nil => rfl
  | cons p rest ih =>
    obtain ⟨fname, fn⟩ := p
    obtain ⟨o, ho⟩ := h _ (List.mem_cons_self _ _)
    have ho' : fn path pkg = Except.ok o := ho
    have hrest := ih (fun q hq => h q (List.mem_cons_of_mem _ hq))
    cases o with
    | none => simp only [runFilters, ho', hrest, List.filterMap_cons]
    | some r => simp only [runFilters, ho', hrest, List.filterMap_cons]

/-- C5 witness: running both shipped classifiers on a `CC-BY-NC-4.0`
declaration yields the two verdicts, each annotated with its producing
classifier's name. -/
theorem runFilters_collects_annotated_witness :
    runFilters [("default-filter", defaultFilter), ("spdx-filter", spdxFilter)] "p"
        ⟨some (JsValue.str "a"), some (JsValue.str "1.0.0"),
          some (JsValue.str "CC-BY-NC-4.0"), none⟩
      = Except.ok [⟨some (JsValue.str "a"), some (JsValue.str "1.0.0"),
            some (JsValue.str "CC-BY-NC-4.0"),
            "license field contains NC keyword (filter: default-filter)"⟩,
          ⟨some (JsValue.str "a"), some (JsValue.str "1.0.0"),
            some (JsValue.str "CC-BY-NC-4.0"),
            "SPDX identifier is known to be non-commercial (filter: spdx-filter)"⟩] :=
  (runFilters_collects_annotated [("default-filter", defaultFilter),
      ("spdx-filter", spdxFilter)] "p"
      ⟨some (JsValue.str "a"), some (JsValue.str "1.0.0"),
        some (JsValue.str "CC-BY-NC-4.0"), none⟩
      (by
        intro q hq
        rcases List.mem_cons.mp hq with h1 | h2
        · subst h1
          exact ⟨_, rfl⟩
        · rw [List.mem_singleton] at h2
          subst h2
          exact ⟨_, rfl⟩)).trans (by rfl)

/-- C6 counterexample: a declaration with no name and no version but an
NC license produces a verdict (with absent name and version fields) from
both classifiers, not nothing. -/
theorem defaultFilter_verdict_without_name_version :
    defaultFilter "p" ⟨none, none, some (JsValue.str "CC-BY-NC-4.0"), none⟩
      = Except.ok (some ⟨none, none, some (JsValue.str "CC-BY-NC-4.0"),
          "license field contains NC keyword"⟩)
    ∧ spdxFilter "p" ⟨none, none, some (JsValue.str "CC-BY-NC-4.0"), none⟩
      = Except.ok (some ⟨none, none, some (JsValue.str "CC-BY-NC-4.0"),
          "SPDX identifier is known to be non-commercial"⟩) :=
  ⟨rfl, rfl⟩

theorem checkLicensesArray_ignores_name_version (n v l a : Option JsValue) (xs : List JsValue) :
    checkLicensesArray ⟨n, v, l, a⟩ xs
      = (checkLicensesArray ⟨none, none, l, a⟩ xs).map (Option.map
          (fun r => ⟨n, v, r.license, r.reason⟩)) := by
  induction xs with
  | nil => rfl
  | cons e rest ih =>
    simp only [checkLicensesArray]
    cases hg : (e.truthy && e.typeofObject) with
    | false =>
      simp only [hg, Bool.false_eq_true, if_false]
      exact ih
    | true =>
      cases ht : jsGet e "type" with
      | none =>
        simp only [hg, if_true, ht]
        exact ih
      | some t =>
        cases htr : t.truthy with
        | false =>
          simp only [hg, if_true, ht, htr, Bool.false_eq_true, if_false]
          exact ih
        | true =>
          cases hl : jsToLowerCase t with
          | error err => simp [hg, ht, htr, hl, Except.map]
          | ok lt =>
            cases ha : NC_KEYWORDS.any (fun k => jsIncludes lt k) with
            | false =>
              simp only [hg, if_true, ht, htr, hl, ha, Bool.false_eq_true, if_false]
              exact ih
            | true => simp [hg, ht, htr, hl, ha, Except.map, Option.map]

/-- C6 amended: the classifiers never inspect the name or version
fields.  A declaration missing them (or holding any values there) is
classified exactly as one with those fields absent, and the verdict, if
any, simply carries the declaration's (possibly absent) name and version
through unchanged; missing name/version never suppresses a verdict. -/
theorem classifiers_ignore_name_version (path : String) (n v l a : Option JsValue) :
    defaultFilter path ⟨n, v, l, a⟩
      = (defaultFilter path ⟨none, none, l, a⟩).map (Option.map
          (fun r => ⟨n, v, r.license, r.reason⟩))
    ∧ spdxFilter path ⟨n, v, l, a⟩
      = (spdxFilter path ⟨none, none, l, a⟩).map (Option.map
          (fun r => ⟨n, v, r.license, r.reason⟩)) := by
  constructor
  · simp only [defaultFilter]
    cases hl : jsToLowerCase (jsOrEmptyString l) with
    | error err =>
      simp only [hl]
      rfl
    | ok low =>
      cases ha : NC_KEYWORDS.any (fun k => jsIncludes low k) with
      | false =>
        simp only [hl, ha, Bool.false_eq_true, if_false, licensesArrayFallback]
        cases a with
        | none => rfl
        | some av =>
          cases av with
          | arr xs => exact checkLicensesArray_ignores_name_version n v l (some (.arr xs)) xs
          | str s => rfl
          | num i => rfl
          | bool b => rfl
          | null => rfl
          | obj fs => rfl
      | true =>
        cases hinc : jsIncludes low "inc." with
        | false =>
          simp only [hl, ha, if_true, hinc, Bool.false_eq_true, if_false]
          rfl
        | true =>
          cases hgrd : ((NC_KEYWORDS.filter (fun k => jsIncludes low k)).length == 1
              && ((NC_KEYWORDS.filter (fun k => jsIncludes low k)).head? == some "nc")) with
          | true =>
            simp only [hl, ha, hinc, if_true, hgrd]
            rfl
          | false =>
            simp only [hl, ha, hinc, if_true, hgrd, Bool.false_eq_true, if_false]
            rfl
  · simp only [spdxFilter]
    cases hu : jsToUpperCase (jsOrEmptyString l) with
    | error err =>
      simp only [hu]
      rfl
    | ok lic =>
      cases hc : NON_COMMERCIAL_SPDX.contains lic with
      | false =>
        simp only [hu, hc, Bool.false_eq_true, if_false]
        rfl
      | true =>
        simp only [hu, hc, if_true]
        rfl

/-- C7: on the compound expression `MIT OR CC-BY-NC-4.0` the Keyword
Classifier returns a verdict (the substring `cc-by-nc` is contained),
the Identifier Classifier returns nothing, and the registry run with
both classifiers returns exactly one verdict attributed by its reason
suffix to the Keyword Classifier. -/
theorem registry_compound_or (path : String) (n v : Option JsValue) :
    defaultFilter path ⟨n, v, some (JsValue.str "MIT OR CC-BY-NC-4.0"), none⟩
      = Except.ok (some ⟨n, v, some (JsValue.str "MIT OR CC-BY-NC-4.0"),
          "license field contains NC keyword"⟩)
    ∧ spdxFilter path ⟨n, v, some (JsValue.str "MIT OR CC-BY-NC-4.0"), none⟩
      = Except.ok none
    ∧ runFilters [("default-filter", defaultFilter), ("spdx-filter", spdxFilter)] path
        ⟨n, v, some (JsValue.str "MIT OR CC-BY-NC-4.0"), none⟩
      = Except.ok [⟨n, v, some (JsValue.str "MIT OR CC-BY-NC-4.0"),
          "license field contains NC keyword (filter: default-filter)"⟩] :=
  ⟨rfl, rfl, rfl⟩

/-- C8: classifying the same declaration twice with the same classifier
yields structurally identical results: the embedded classifiers are
functions of the declaration alone (the source modules hold no mutable
state), so two invocations agree field for field. -/
theorem classifiers_idempotent (path : String) (pkg : PkgJson) :
    (∀ r r', defaultFilter path pkg = Except.ok (some r) →
        defaultFilter path pkg = Except.ok (some r') →
        r.name = r'.name ∧ r.version = r'.version ∧ r.license = r'.license
          ∧ r.reason = r'.reason)
    ∧ (∀ r r', spdxFilter path pkg = Except.ok (some r) →
        spdxFilter path pkg = Except.ok (some r') →
        r.name = r'.name ∧ r.version = r'.version ∧ r.license = r'.license
          ∧ r.reason = r'.reason) := by
  constructor <;>
  · intro r r' h1 h2
    have hrr : r = r' := by
      have h3 := h1.symm.trans h2
      simpa using h3
    subst hrr
    exact ⟨rfl, rfl, rfl, rfl⟩

/-- C8 witness: the two invocations on a concrete `CC-BY-NC-4.0`
declaration produce field-for-field identical verdicts. -/
theorem classifiers_idempotent_witness :
    (⟨some (JsValue.str "a"), some (JsValue.str "1.0.0"),
        some (JsValue.str "CC-BY-NC-4.0"),
        "license field contains NC keyword"⟩ : LicenseMatchResult).name
      = (⟨some (JsValue.str "a"), some (JsValue.str "1.0.0"),
          some (JsValue.str "CC-BY-NC-4.0"),
          "license field contains NC keyword"⟩ : LicenseMatchResult).name
    ∧ (⟨some (JsValue.str "a"), some (JsValue.str "1.0.0"),
        some (JsValue.str "CC-BY-NC-4.0"),
        "license field contains NC keyword"⟩ : LicenseMatchResult).version
      = (⟨some (JsValue.str "a"), some (JsValue.str "1.0.0"),
          some (JsValue.str "CC-BY-NC-4.0"),
          "license field contains NC keyword"⟩ : LicenseMatchResult).version
    ∧ (⟨some (JsValue.str "a"), some (JsValue.str "1.0.0"),
        some (JsValue.str "CC-BY-NC-4.0"),
        "license field contains NC keyword"⟩ : LicenseMatchResult).license
      = (⟨some (JsValue.str "a"), some (JsValue.str "1.0.0"),
          some (JsValue.str "CC-BY-NC-4.0"),
          "license field contains NC keyword"⟩ : LicenseMatchResult).license
    ∧ (⟨some (JsValue.str "a"), some (JsValue.str "1.0.0"),
        some (JsValue.str "CC-BY-NC-4.0"),
        "license field contains NC keyword"⟩ : LicenseMatchResult).reason
      = (⟨some (JsValue.str "a"), some (JsValue.str "1.0.0"),
          some (JsValue.str "CC-BY-NC-4.0"),
          "license field contains NC keyword"⟩ : LicenseMatchResult).reason :=
  (classifiers_idempotent "p" ⟨some (JsValue.str "a"), some (JsValue.str "1.0.0"),
      some (JsValue.str "CC-BY-NC-4.0"), none⟩).1 _ _ rfl rfl

/-- C9: the classifiers are pure functions of the declaration (the
declaration record is never modified — the embedding passes it by
value), and the registry changes only the reason field of each collected
verdict: every verdict in the registry's output is a
classifier-produced verdict with identical name, version and license
fields, its reason extended by exactly the provenance suffix. -/
theorem runFilters_frames (filters : List (String × JsFilter)) (path : String)
    (pkg : PkgJson) (rs : List LicenseMatchResult)
    (h : runFilters filters path pkg = Except.ok rs) :
    ∀ r ∈ rs, ∃ fname fn r₀, (fname, fn) ∈ filters
      ∧ fn path pkg = Except.ok (some r₀)
      ∧ r.name = r₀.name ∧ r.version = r₀.version ∧ r.license = r₀.license
      ∧ r.reason = r₀.reason ++ " (filter: " ++ fname ++ ")" := by
  induction filters generalizing rs with
  | nil =>
    simp only [runFilters, Except.ok.injEq] at h
    subst h
    intro r hr
    simp at hr
  | cons p rest ih =>
    obtain ⟨fname, fn⟩ := p
    simp only [runFilters] at h
    cases hfn : fn path pkg with
    | error e =>
      simp only [hfn] at h
      exact Except.noConfusion h
    | ok o =>
      cases hrest : runFilters rest path pkg with
      | error e =>
        simp only [hfn, hrest] at h
        exact Except.noConfusion h
      | ok rs' =>
        cases o with
        | none =>
          simp only [hfn, hrest, Except.ok.injEq] at h
          subst h
          intro r hr
          obtain ⟨f1, f2, r1, hmem, hres, h1, h2, h3, h4⟩ := ih rs' hrest r hr
          exact ⟨f1, f2, r1, List.mem_cons_of_mem _ hmem, hres, h1, h2, h3, h4⟩
        | some r0 =>
          simp only [hfn, hrest, Except.ok.injEq] at h
          subst h
          intro r hr
          rcases List.mem_cons.mp hr with rfl | hr'
          · exact ⟨fname, fn, r0, List.mem_cons_self _ _, hfn, rfl, rfl, rfl, rfl⟩
          · obtain ⟨f1, f2, r1, hmem, hres, h1, h2, h3, h4⟩ := ih rs' hrest r hr'
            exact ⟨f1, f2, r1, List.mem_cons_of_mem _ hmem, hres, h1, h2, h3, h4⟩

/-- C9 witness: the single verdict produced by the registry on a
concrete declaration is the Keyword Classifier's verdict with name,
version and license unchanged and only the reason extended. -/
theorem runFilters_frames_witness :
    ∃ fname fn r₀,
      (fname, fn) ∈ ([("default-filter", defaultFilter)] : List (String × JsFilter))
      ∧ fn "p" ⟨some (JsValue.str "a"), some (JsValue.str "1.0.0"),
          some (JsValue.str "CC-BY-NC-4.0"), none⟩ = Except.ok (some r₀)
      ∧ (⟨some (JsValue.str "a"), some (JsValue.str "1.0.0"),
          some (JsValue.str "CC-BY-NC-4.0"),
          "license field contains NC keyword (filter: default-filter)"⟩
            : LicenseMatchResult).name = r₀.name
      ∧ (⟨some (JsValue.str "a"), some (JsValue.str "1.0.0"),
          some (JsValue.str "CC-BY-NC-4.0"),
          "license field contains NC keyword (filter: default-filter)"⟩
            : LicenseMatchResult).version = r₀.version
      ∧ (⟨some (JsValue.str "a"), some (JsValue.str "1.0.0"),
          some (JsValue.str "CC-BY-NC-4.0"),
          "license field contains NC keyword (filter: default-filter)"⟩
            : LicenseMatchResult).license = r₀.license
      ∧ (⟨some (JsValue.str "a"), some (JsValue.str "1.0.0"),
          some (JsValue.str "CC-BY-NC-4.0"),
          "license field contains NC keyword (filter: default-filter)"⟩
            : LicenseMatchResult).reason
        = r₀.reason ++ " (filter: " ++ fname ++ ")" :=
  runFilters_frames [("default-filter", defaultFilter)] "p"
    ⟨some (JsValue.str "a"), some (JsValue.str "1.0.0"),
      some (JsValue.str "CC-BY-NC-4.0"), none⟩
    [⟨some (JsValue.str "a"), some (JsValue.str "1.0.0"),
      some (JsValue.str "CC-BY-NC-4.0"),
      "license field contains NC keyword (filter: default-filter)"⟩]
    rfl _ (List.mem_singleton_self _)

example : jsIncludes "mit or cc-by-nc-4.0" "cc-by-nc" = true := by decide
example : jsIncludes "gnu general public license v3.0 (inc.)" "nc" = true := by decide
example : NC_KEYWORDS.filter
    (fun k => jsIncludes "gnu general public license v3.0 (inc.)" k) = ["nc"] := by decide
example : defaultFilter "p" ⟨none, none, some (JsValue.str "CC-BY-NC-4.0"), none⟩
    = Except.ok (some ⟨none, none, some (JsValue.str "CC-BY-NC-4.0"),
        "license field contains NC keyword"⟩) := rfl
example : spdxFilter "p" ⟨none, none, some (JsValue.str "cc-by-nc-4.0"), none⟩
    = Except.ok (some ⟨none, none, some (JsValue.str "cc-by-nc-4.0"),
        "SPDX identifier is known to be non-commercial"⟩) := rfl
example : defaultFilter "p" ⟨none, none, some (JsValue.num 5), none⟩
    = Except.error JsError.typeError := rfl
example : defaultFilter "p" ⟨none, none, some (JsValue.str "Foo, Inc."),
      some (JsValue.arr [JsValue.obj [("type", JsValue.str "CC-BY-NC-4.0")]])⟩
    = Except.ok none := rfl

end NcCheck
